import Mathlib

/-!
Shallow embedding of the vocabulary curation and exercise-generation engine
of `app/services/vocab_service.py` (class `VocabularyService`), together with
the data model of `app/database/models.py`, and proofs of the specification
claims about it.

Conventions of the embedding:
* Python strings are Lean `String`s; the Python substring test `a in b` is
  `strContains b a`; Python `str.replace` (replace every non-overlapping
  occurrence, case-sensitively, left to right) is `pyReplace`.
* Python `dict` grouping (insertion-ordered keys, values appended in
  encounter order) is modelled by the pair (`dedupKeys` of the key list in
  first-occurrence order, `List.filter` for each key's group).
* `random.sample(l, k)` is modelled by an abstract parameter
  `sample : List VocabularyItem → Nat → List VocabularyItem` constrained by
  `IsSampler` (the result has length `min k l.length`, its elements come
  from `l`, and it is drawn without replacement); `random.choice(l)` is an
  abstract `choice : List String → Option String` constrained by `IsChoice`,
  where `none` models the `IndexError` Python raises on an empty sequence.
* A Python `int(x * 0.3)` / `int(x * 0.2)` on a nonnegative int `x` is
  modelled by natural floor division `x * 3 / 10` / `x * 2 / 10`.
* Functions that can raise are `Option`-valued, `none` meaning an exception
  escapes; `async` wrappers around the pure logic are dropped and external
  collaborator results (sheet contents, generator output) are parameters.
-/

/-- `EnglishLevel` from `app/database/models.py`: a closed three-valued
string enum. -/
inductive EnglishLevel where
  | basic
  | intermediate
  | advanced
deriving DecidableEq, Repr

/-- The `.value` of the Python string enum. -/
def EnglishLevel.value : EnglishLevel → String
  | .basic => "basic"
  | .intermediate => "intermediate"
  | .advanced => "advanced"

/-- `VocabularyItem` from `app/database/models.py` (pydantic model; equality
compares all fields, as pydantic `__eq__` does). -/
structure VocabularyItem where
  id : String
  category : String
  english_word : String
  spanish_translation : String
  example_sentence : String
  complexity : EnglishLevel
  pronunciation : Option String
deriving DecidableEq, Repr

/-- Python `str.lower()` in the engine's ASCII usage: lowercase every
character. (Implemented over the character list so that it reduces in the
kernel; agrees with Python on the ASCII strings the service handles.) -/
def pyLower (s : String) : String :=
  ⟨s.data.map Char.toLower⟩

/-- One step of the Python substring test: does `needle` occur in the
haystack list of characters? (`List.isPrefixOf` checked at every suffix.) -/
def needleIn (needle : List Char) : List Char → Bool
  | [] => needle.isEmpty
  | c :: rest => needle.isPrefixOf (c :: rest) || needleIn needle rest

/-- Python `needle in hay` on strings (case-sensitive literal substring
test; the empty needle is contained in everything, as in Python). -/
def strContains (hay needle : String) : Bool :=
  needleIn needle.data hay.data

/-- Helper for `pyReplace`: replace every leftmost non-overlapping occurrence
of the non-empty pattern `p :: ps` by `rep`, scanning left to right. The
`fuel` argument (instantiated with the string length, an upper bound on the
number of steps, each of which consumes at least one character) only makes
the recursion structural; the fuel-exhausted branch is unreachable. -/
def replaceAllAux (p : Char) (ps rep : List Char) : Nat → List Char → List Char
  | _, [] => []
  | 0, s => s
  | fuel + 1, c :: rest =>
    if (p :: ps).isPrefixOf (c :: rest) then
      rep ++ replaceAllAux p ps rep fuel (rest.drop ps.length)
    else
      c :: replaceAllAux p ps rep fuel rest

/-- Python `s.replace(old, new)`: replace all non-overlapping occurrences,
case-sensitively, left to right; an empty `old` inserts `new` at every
position (before each character and at the end), as Python does. -/
def pyReplace (s old new : String) : String :=
  match old.data with
  | [] => ⟨new.data ++ s.data.flatMap (fun c => c :: new.data)⟩
  | p :: ps => ⟨replaceAllAux p ps new.data s.data.length s.data⟩

/-- The fixed theme keyword table of `_extract_theme`, in the Python dict's
insertion order. -/
def themesTable : List (String × List String) :=
  [("time", ["time", "hour", "minute", "second", "day", "week", "month", "year"]),
   ("family", ["mother", "father", "brother", "sister", "family", "parent", "child"]),
   ("work", ["work", "job", "office", "boss", "employee", "meeting", "project"]),
   ("food", ["food", "eat", "drink", "water", "coffee", "tea", "meal", "restaurant"]),
   ("home", ["house", "home", "room", "bed", "kitchen", "bathroom", "garden"]),
   ("school", ["school", "student", "teacher", "class", "lesson", "homework", "exam"]),
   ("health", ["health", "doctor", "hospital", "medicine", "sick", "healthy", "exercise"]),
   ("money", ["money", "bank", "pay", "price", "cost", "buy", "sell", "market"]),
   ("travel", ["travel", "trip", "airport", "hotel", "passport", "ticket", "destination"]),
   ("technology", ["computer", "phone", "internet", "email", "software", "data", "digital"])]

/-- `VocabularyService._extract_theme`: lowercase the word, scan the theme
table in order, return the first theme one of whose keywords occurs in the
lowercased word as a substring; `"general"` if none matches. -/
def extract_theme (word : String) : String :=
  let word_lower := pyLower word
  match themesTable.find? (fun tk => tk.2.any (fun k => strContains word_lower k)) with
  | some tk => tk.1
  | none => "general"

/-- The fixed practical-word list of `_is_practical_word`. -/
def practicalTable : List String :=
  ["hello", "goodbye", "please", "thank", "sorry", "excuse",
   "help", "need", "want", "have", "do", "make", "take", "give",
   "go", "come", "see", "look", "hear", "say", "tell", "ask",
   "eat", "drink", "sleep", "work", "study", "learn", "teach",
   "buy", "sell", "pay", "cost", "price", "money", "time", "day"]

/-- `VocabularyService._is_practical_word`: true iff some practical word
occurs in the lowercased word as a substring. -/
def is_practical_word (word : String) : Bool :=
  practicalTable.any (fun practical => strContains (pyLower word) practical)

/-- The fixed stop-word list (`common_words`) of `_is_interesting_word`. -/
def commonWordsTable : List String :=
  ["the", "be", "to", "of", "and", "a", "in", "that", "have", "i",
   "it", "for", "not", "on", "with", "he", "as", "you", "do", "at"]

/-- The fixed affix list (`interesting_patterns`) of `_is_interesting_word`. -/
def interestingPatterns : List String :=
  ["anti", "auto", "bio", "geo", "hyper", "inter", "macro",
   "micro", "multi", "neo", "omni", "poly", "tele", "trans"]

/-- `VocabularyService._is_interesting_word`: length over 8 returns true;
otherwise an affix substring returns true; otherwise true iff the lowercased
word is not a stop word. -/
def is_interesting_word (word : String) : Bool :=
  let word_lower := pyLower word
  if 8 < word.length then true
  else if interestingPatterns.any (fun pattern => strContains word_lower pattern) then true
  else !(commonWordsTable.contains word_lower)

example : extract_theme "teacher" = "food" := by decide
example : extract_theme "passport" = "travel" := by decide
example : extract_theme "xylophone" = "technology" := by decide
example : extract_theme "workday" = "time" := by decide
example : is_interesting_word "cat" = true := by decide

/-- The validity contract of Python `random.choice(seq)` as used by the
builder: it yields `none` (an `IndexError`) exactly on the empty sequence,
and any chosen element comes from the sequence. -/
def IsChoice (choice : List String → Option String) : Prop :=
  ∀ l : List String,
    (choice l = none ↔ l = []) ∧ (∀ x, choice l = some x → x ∈ l)

/-- A concrete choice function (always picks the first element); used to
instantiate scenarios. -/
def headChoice (l : List String) : Option String :=
  l.head?

/-- One entry of a `fill_blank` exercise (`sentence`, `correct_word`,
`options`), as built in `_create_basic_exercises`. -/
structure FillBlankSentence where
  sentence : String
  correct_word : String
  options : List String
deriving DecidableEq, Repr

/-- The tagged union of exercises produced by the builder, carrying each
type's structural payload (constant display strings such as titles and
instructions are not part of the model). -/
inductive Exercise where
  | matching (pairs : List (String × String)) (shuffle : Bool)
  | fill_blank (sentences : List FillBlankSentence)
  | sentence_creation (words : List String)
  | synonyms (words : List String)
  | debate (topic : String) (required_words : List String)
  | reverse_translation (sentences : List (String × String))
deriving DecidableEq, Repr

/-- The `type` tag of an exercise. -/
inductive ExerciseType where
  | matching
  | fill_blank
  | sentence_creation
  | synonyms
  | debate
  | reverse_translation
deriving DecidableEq, Repr

/-- Project an exercise to its `type` tag. -/
def Exercise.etype : Exercise → ExerciseType
  | .matching _ _ => .matching
  | .fill_blank _ => .fill_blank
  | .sentence_creation _ => .sentence_creation
  | .synonyms _ => .synonyms
  | .debate _ _ => .debate
  | .reverse_translation _ => .reverse_translation

/-- One entry of the `sentences` list of the `fill_blank` exercise: blank out
the English word in the example sentence (a case-sensitive literal
`str.replace`), and draw one distractor with `random.choice` from the
English words of all entries different from the current one (`none` when
that list is empty, i.e. Python raises `IndexError`). -/
def fill_blank_sentence (choice : List String → Option String)
    (vocabulary : List VocabularyItem) (word : VocabularyItem) :
    Option FillBlankSentence := do
  let distractor ← choice ((vocabulary.filter (fun w => decide (w ≠ word))).map
    (fun w => w.english_word))
  pure { sentence := pyReplace word.example_sentence word.english_word "_____",
         correct_word := word.english_word,
         options := [word.english_word, distractor, "different word"] }

/-- The `matching` block of `_create_basic_exercises`: one matching exercise
over the first 4 entries when at least 4 entries exist, nothing otherwise. -/
def matching_block (vocabulary : List VocabularyItem) : List Exercise :=
  if 4 ≤ vocabulary.length then
    [Exercise.matching
      ((vocabulary.take 4).map (fun w => (w.english_word, w.spanish_translation))) true]
  else []

/-- `VocabularyService._create_basic_exercises`: a `matching` exercise over
the first 4 entries when at least 4 entries exist, then a `fill_blank`
exercise over the first 3 entries when at least 3 exist; `none` models the
`IndexError` raised when a distractor draw hits an empty list. -/
def create_basic_exercises (choice : List String → Option String)
    (vocabulary : List VocabularyItem) : Option (List Exercise) := do
  if 3 ≤ vocabulary.length then
    let sentences ← (vocabulary.take 3).mapM (fill_blank_sentence choice vocabulary)
    pure (matching_block vocabulary ++ [Exercise.fill_blank sentences])
  else
    pure (matching_block vocabulary)

/-- The `sentence_creation` block of `_create_intermediate_exercises`:
present when at least 5 entries exist. -/
def sentence_creation_block (vocabulary : List VocabularyItem) : List Exercise :=
  if 5 ≤ vocabulary.length then
    [Exercise.sentence_creation ((vocabulary.take 5).map (fun w => w.english_word))]
  else []

/-- The `synonyms` block of `_create_intermediate_exercises`: present when
at least 4 entries exist. -/
def synonyms_block (vocabulary : List VocabularyItem) : List Exercise :=
  if 4 ≤ vocabulary.length then
    [Exercise.synonyms ((vocabulary.take 4).map (fun w => w.english_word))]
  else []

/-- `VocabularyService._create_intermediate_exercises`: the basic exercises,
then `sentence_creation` over the first 5 entries when at least 5 exist,
then `synonyms` over the first 4 when at least 4 exist. -/
def create_intermediate_exercises (choice : List String → Option String)
    (vocabulary : List VocabularyItem) : Option (List Exercise) := do
  let exercises ← create_basic_exercises choice vocabulary
  pure (exercises ++ sentence_creation_block vocabulary ++ synonyms_block vocabulary)

/-- The `debate` block of `_create_advanced_exercises`: present when at
least 3 entries exist, on the first entry's category. -/
def debate_block (vocabulary : List VocabularyItem) : List Exercise :=
  if 3 ≤ vocabulary.length then
    [Exercise.debate ((vocabulary.head?.map (fun w => w.category)).getD "")
      ((vocabulary.take 3).map (fun w => w.english_word))]
  else []

/-- The `reverse_translation` block of `_create_advanced_exercises`: present
when at least 4 entries exist. -/
def reverse_translation_block (vocabulary : List VocabularyItem) : List Exercise :=
  if 4 ≤ vocabulary.length then
    [Exercise.reverse_translation ((vocabulary.take 4).map
      (fun w => ("Ejemplo en español usando " ++ w.spanish_translation, w.english_word)))]
  else []

/-- `VocabularyService._create_advanced_exercises`: the intermediate
exercises, then `debate` on the first entry's category with the first 3
English words when at least 3 entries exist, then `reverse_translation` over
the first 4 when at least 4 exist. -/
def create_advanced_exercises (choice : List String → Option String)
    (vocabulary : List VocabularyItem) : Option (List Exercise) := do
  let exercises ← create_intermediate_exercises choice vocabulary
  pure (exercises ++ debate_block vocabulary ++ reverse_translation_block vocabulary)

/-- Fuel-driven helper for `dedupKeys` (the fuel, instantiated with the list
length, bounds the number of steps and only makes the recursion structural;
the fuel-exhausted branch is unreachable). -/
def dedupKeysGo : Nat → List String → List String
  | _, [] => []
  | 0, l => l
  | fuel + 1, k :: ks => k :: dedupKeysGo fuel (ks.filter (fun x => decide (x ≠ k)))

/-- First-occurrence-ordered distinct keys of a list: the key order of a
Python `dict` built by appending per-key groups in encounter order. -/
def dedupKeys (l : List String) : List String :=
  dedupKeysGo l.length l

/-- One element of the lesson's `thematic_groups`: theme name, up to 3
example words, and the full per-theme count. -/
structure ThematicGroup where
  theme : String
  words : List String
  count : Nat
deriving DecidableEq, Repr

/-- The lesson record assembled by `create_vocabulary_lesson` (structural
fields; the constant `learning_objectives` strings are carried verbatim). -/
structure Lesson where
  title : String
  description : String
  vocabulary : List VocabularyItem
  thematic_groups : List ThematicGroup
  exercises : List Exercise
  estimated_time : String
  learning_objectives : List String
deriving DecidableEq, Repr

/-- Result of `create_vocabulary_lesson`: the error-tagged dict, or a
lesson. (`none` at the `Option` level models a raised exception.) -/
inductive LessonResult where
  | error (message : String)
  | lesson (l : Lesson)
deriving DecidableEq, Repr

/-- The level dispatch of `create_vocabulary_lesson` (its `if/elif/else` on
the user level). -/
def exercises_for (choice : List String → Option String)
    (user_level : EnglishLevel) (vocabulary : List VocabularyItem) :
    Option (List Exercise) :=
  match user_level with
  | .basic => create_basic_exercises choice vocabulary
  | .intermediate => create_intermediate_exercises choice vocabulary
  | .advanced => create_advanced_exercises choice vocabulary

/-- `VocabularyService.create_vocabulary_lesson`: error-tagged result on
empty vocabulary; otherwise group by theme (first-occurrence key order),
build level-appropriate exercises, and assemble the lesson record with
`estimated_time` of twice the word count in minutes and the first 3 themes,
each with up to 3 example words and its full count. -/
def create_vocabulary_lesson (choice : List String → Option String)
    (vocabulary : List VocabularyItem) (user_level : EnglishLevel) :
    Option LessonResult := do
  if vocabulary = [] then
    pure (LessonResult.error "No hay vocabulario disponible")
  else
    let theme_keys := dedupKeys (vocabulary.map (fun w => extract_theme w.english_word))
    let exercises ← exercises_for choice user_level vocabulary
    pure (LessonResult.lesson
      { title := "Vocabulario: " ++ ((vocabulary.head?.map (fun w => w.category)).getD "General"),
        description := "Lección de " ++ toString vocabulary.length ++
          " palabras para nivel " ++ user_level.value,
        vocabulary := vocabulary,
        thematic_groups := (theme_keys.take 3).map (fun theme =>
          let words := vocabulary.filter
            (fun w => decide (extract_theme w.english_word = theme))
          { theme := theme,
            words := (words.take 3).map (fun w => w.english_word),
            count := words.length }),
        exercises := exercises,
        estimated_time := toString (vocabulary.length * 2) ++ " minutos",
        learning_objectives := ["Memorizar palabras clave", "Usar palabras en contexto",
          "Practicar pronunciación", "Aplicar en conversaciones"] })

/-- The `daily_life` entries of the fixed fallback table of
`_get_fallback_vocabulary` (the `category` field is set to the requested
category, as in the source). -/
def fallback_daily_life (category : String) : List VocabularyItem :=
  [{ id := "fallback_1", category := category, english_word := "hello",
     spanish_translation := "hola", example_sentence := "Hello, how are you?",
     complexity := .basic, pronunciation := some "/həˈloʊ/" },
   { id := "fallback_2", category := category, english_word := "thank you",
     spanish_translation := "gracias", example_sentence := "Thank you for your help.",
     complexity := .basic, pronunciation := some "/ˈθæŋk juː/" }]

/-- The `work` entries of the fixed fallback table. -/
def fallback_work (category : String) : List VocabularyItem :=
  [{ id := "fallback_3", category := category, english_word := "meeting",
     spanish_translation := "reunión", example_sentence := "We have a meeting at 3 PM.",
     complexity := .intermediate, pronunciation := some "/ˈmiːtɪŋ/" }]

/-- The `education` entries of the fixed fallback table. -/
def fallback_education (category : String) : List VocabularyItem :=
  [{ id := "fallback_4", category := category, english_word := "student",
     spanish_translation := "estudiante", example_sentence := "The student is studying English.",
     complexity := .basic, pronunciation := some "/ˈstuːdənt/" }]

/-- `VocabularyService._get_fallback_vocabulary`: look the category up in
the fixed table (defaulting to `daily_life`), filter by level when one is
given, and truncate to `limit`. -/
def get_fallback_vocabulary (category : String) (user_level : Option EnglishLevel)
    (limit : Nat) : List VocabularyItem :=
  let vocab_list :=
    if category = "daily_life" then fallback_daily_life category
    else if category = "work" then fallback_work category
    else if category = "education" then fallback_education category
    else fallback_daily_life category
  let vocab_list :=
    match user_level with
    | some lvl => vocab_list.filter (fun (v : VocabularyItem) => decide (v.complexity = lvl))
    | none => vocab_list
  vocab_list.take limit

/-- One successfully parsed generator item (the fields read off the parsed
JSON, with the enum value already validated). -/
structure GeneratedItem where
  english_word : String
  spanish_translation : String
  example_sentence : String
  complexity : EnglishLevel
  pronunciation : Option String
deriving DecidableEq, Repr

/-- `VocabularyService._generate_vocabulary` after the generator call: the
`try` body either yields parsed items (built into `VocabularyItem`s with
synthetic ids from the position and a timestamp) or raises
(`Except.error`, covering JSON parse failures and any other exception), in
which case the fixed fallback vocabulary is returned instead. -/
def generate_vocabulary (parsed : Except Unit (List GeneratedItem)) (stamp : String)
    (category : String) (user_level : Option EnglishLevel) (limit : Nat) :
    List VocabularyItem :=
  match parsed with
  | .ok items =>
    items.enum.map (fun p =>
      { id := "gen_" ++ category ++ "_" ++ toString p.1 ++ "_" ++ stamp,
        category := category,
        english_word := p.2.english_word,
        spanish_translation := p.2.spanish_translation,
        example_sentence := p.2.example_sentence,
        complexity := p.2.complexity,
        pronunciation := p.2.pronunciation })
  | .error _ => get_fallback_vocabulary category user_level limit

/-- The validity contract of Python `random.sample(l, k)` as the engine
calls it (always with `k ≤ len(l)`): the draw has exactly `min k l.length`
elements, each drawn from `l`, and is without replacement (it keeps
duplicate-freeness). -/
def IsSampler (sample : List VocabularyItem → Nat → List VocabularyItem) : Prop :=
  ∀ (l : List VocabularyItem) (k : Nat),
    (sample l k).length = min k l.length ∧
    (∀ x ∈ sample l k, x ∈ l) ∧
    (l.Nodup → (sample l k).Nodup)

/-- A concrete sampler (the first `k` elements); used to instantiate
scenarios. -/
def takeSample (l : List VocabularyItem) (k : Nat) : List VocabularyItem :=
  l.take k

/-- The deduplication loop of `_intelligent_selection`: keep each word whose
id has not been seen yet, threading the `seen_ids` accumulator. -/
def dedup_by_id : List VocabularyItem → List String → List VocabularyItem
  | [], _ => []
  | w :: ws, seen =>
    if w.id ∈ seen then dedup_by_id ws seen
    else w :: dedup_by_id ws (w.id :: seen)

/-- The final value of the `seen_ids` accumulator of the deduplication
loop. -/
def seen_ids_after : List VocabularyItem → List String → List String
  | [], seen => seen
  | w :: ws, seen =>
    if w.id ∈ seen then seen_ids_after ws seen
    else seen_ids_after ws (w.id :: seen)

/-- The fixed complexity iteration order of the diversity pass. -/
def levelList : List EnglishLevel :=
  [.basic, .intermediate, .advanced]

/-- Pass 1 of `_intelligent_selection` (complexity diversity): for each of
the three complexities in fixed order, when its group is non-empty, draw
`min(max(1, int(limit*0.3)), len(group))` entries from the group of that
complexity. -/
def complexity_pass (sample : List VocabularyItem → Nat → List VocabularyItem)
    (vocabulary : List VocabularyItem) (limit : Nat) : List VocabularyItem :=
  (levelList.map (fun comp =>
    let group_words := vocabulary.filter (fun w => decide (w.complexity = comp))
    if group_words.isEmpty then []
    else sample group_words (min (max 1 (limit * 3 / 10)) group_words.length))).flatten

/-- Pass 2 of `_intelligent_selection` (thematic diversity): for each of the
first 5 themes in first-occurrence order, draw
`min(max(1, int(limit*0.3/numThemes)), len(group))` entries from that
theme's group. -/
def theme_pass (sample : List VocabularyItem → Nat → List VocabularyItem)
    (vocabulary : List VocabularyItem) (limit : Nat) : List VocabularyItem :=
  let theme_keys := dedupKeys (vocabulary.map (fun w => extract_theme w.english_word))
  ((theme_keys.take 5).map (fun theme =>
    let group_words := vocabulary.filter
      (fun w => decide (extract_theme w.english_word = theme))
    if group_words.isEmpty then []
    else sample group_words
      (min (max 1 (limit * 3 / (10 * theme_keys.length))) group_words.length))).flatten

/-- Pass 3 of `_intelligent_selection` (practicality): when practical words
exist, draw `min(max(1, int(limit*0.2)), len(group))` of them. -/
def practical_pass (sample : List VocabularyItem → Nat → List VocabularyItem)
    (vocabulary : List VocabularyItem) (limit : Nat) : List VocabularyItem :=
  let practical_words := vocabulary.filter (fun w => is_practical_word w.english_word)
  if practical_words.isEmpty then []
  else sample practical_words (min (max 1 (limit * 2 / 10)) practical_words.length)

/-- Pass 4 of `_intelligent_selection` (novelty): when interesting words
exist, draw `min(max(1, int(limit*0.2)), len(group))` of them. -/
def interesting_pass (sample : List VocabularyItem → Nat → List VocabularyItem)
    (vocabulary : List VocabularyItem) (limit : Nat) : List VocabularyItem :=
  let interesting_words := vocabulary.filter (fun w => is_interesting_word w.english_word)
  if interesting_words.isEmpty then []
  else sample interesting_words (min (max 1 (limit * 2 / 10)) interesting_words.length)

/-- The `selected` list of `_intelligent_selection`: the concatenation of
the four passes, in order. -/
def selection_union (sample : List VocabularyItem → Nat → List VocabularyItem)
    (vocabulary : List VocabularyItem) (limit : Nat) : List VocabularyItem :=
  complexity_pass sample vocabulary limit ++ theme_pass sample vocabulary limit ++
    practical_pass sample vocabulary limit ++ interesting_pass sample vocabulary limit

/-- The final backfill of `_intelligent_selection`: when the de-duplicated
selection falls short of `limit` and unselected entries remain, draw the
shortfall from the entries whose id has not been seen. -/
def selection_backfill (sample : List VocabularyItem → Nat → List VocabularyItem)
    (vocabulary : List VocabularyItem) (limit : Nat)
    (unique_selected : List VocabularyItem) (seen_ids : List String) :
    List VocabularyItem :=
  if unique_selected.length < limit then
    let remaining := vocabulary.filter (fun w => decide (w.id ∉ seen_ids))
    if remaining.isEmpty then unique_selected
    else unique_selected ++
      sample remaining (min (limit - unique_selected.length) remaining.length)
  else unique_selected

/-- `VocabularyService._intelligent_selection`: return the pool unchanged
when it has at most `limit` entries; otherwise union four sampling passes
(complexity diversity, thematic diversity over the first 5 themes,
practicality, novelty), de-duplicate by id preserving first-seen order,
backfill at random from unselected entries up to `limit`, and truncate to
`limit`. The Python `int(limit * 0.3)`, `int(limit * 0.3 / numThemes)` and
`int(limit * 0.2)` are modelled as the natural floor divisions
`limit * 3 / 10`, `limit * 3 / (10 * numThemes)` and `limit * 2 / 10`. -/
def intelligent_selection (sample : List VocabularyItem → Nat → List VocabularyItem)
    (vocabulary : List VocabularyItem) (limit : Nat) : List VocabularyItem :=
  if vocabulary.length ≤ limit then vocabulary
  else
    let selected := selection_union sample vocabulary limit
    (selection_backfill sample vocabulary limit
      (dedup_by_id selected []) (seen_ids_after selected [])).take limit

/-- The `level_order` dict of `get_category_vocabulary` (every complexity
value is a key, so the `.get` default 1 is never used). -/
def level_order (lvl : EnglishLevel) : Int :=
  match lvl with
  | .basic => 0
  | .intermediate => 1
  | .advanced => 2

/-- The sort key of the backfill in `get_category_vocabulary`: absolute
distance between an entry's complexity and the user level on the ordinal
scale. -/
def level_distance (x : VocabularyItem) (user_level : EnglishLevel) : Nat :=
  (level_order x.complexity - level_order user_level).natAbs

/-- The comparison relation of the backfill sort: ascending level
distance. -/
def distLE (user_level : EnglishLevel) (x y : VocabularyItem) : Prop :=
  level_distance x user_level ≤ level_distance y user_level

instance (user_level : EnglishLevel) : DecidableRel (distLE user_level) :=
  fun x y => Nat.decLe (level_distance x user_level) (level_distance y user_level)

instance (user_level : EnglishLevel) : IsTotal VocabularyItem (distLE user_level) :=
  ⟨fun x y => Nat.le_total (level_distance x user_level) (level_distance y user_level)⟩

instance (user_level : EnglishLevel) : IsTrans VocabularyItem (distLE user_level) :=
  ⟨fun _ _ _ => Nat.le_trans⟩

/-- The pure portion of `VocabularyService.get_category_vocabulary` once a
non-empty pool has been fetched: when a level is given and matching-level
entries fall short of `limit`, backfill with the other-level entries
stably sorted by ascending level distance, truncated to the shortfall;
then run the intelligent selection. -/
def get_category_selection (sample : List VocabularyItem → Nat → List VocabularyItem)
    (all_vocab : List VocabularyItem) (user_level : Option EnglishLevel)
    (limit : Nat) : List VocabularyItem :=
  let filtered_vocab :=
    match user_level with
    | some lvl =>
      let filtered := all_vocab.filter (fun v => decide (v.complexity = lvl))
      if filtered.length < limit then
        let other := all_vocab.filter (fun v => decide (v.complexity ≠ lvl))
        let sorted := other.insertionSort (distLE lvl)
        filtered ++ sorted.take (limit - filtered.length)
      else filtered
    | none => all_vocab
  intelligent_selection sample filtered_vocab limit

/-- Helper to build concrete vocabulary entries for scenarios. -/
def mkEntry (i w t s : String) (c : EnglishLevel) : VocabularyItem :=
  { id := i, category := "daily_life", english_word := w, spanish_translation := t,
    example_sentence := s, complexity := c, pronunciation := none }

/-- The entry of the fill-blank scenario: `englishTerm` lowercase `hello`,
`exampleSentence` starting with capitalized `Hello`. -/
def helloEntry : VocabularyItem :=
  mkEntry "w1" "hello" "hola" "Hello, how are you?" .basic

/-- Variant of `helloEntry` whose term occurs verbatim in the sentence. -/
def helloCapEntry : VocabularyItem :=
  mkEntry "w1" "Hello" "hola" "Hello, how are you?" .basic

/-- A second concrete entry. -/
def catEntry : VocabularyItem :=
  mkEntry "w2" "cat" "gato" "The cat sleeps." .basic

/-- A third concrete entry. -/
def dogEntry : VocabularyItem :=
  mkEntry "w3" "dog" "perro" "The dog runs." .basic

theorem headChoice_isChoice : IsChoice headChoice := by
  intro l
  constructor
  · simp [headChoice, List.head?_eq_none_iff]
  · intro x hx
    exact List.mem_of_mem_head? (by simpa [headChoice] using hx)

theorem takeSample_isSampler : IsSampler takeSample := by
  intro l k
  refine ⟨List.length_take _ _, ?_, ?_⟩
  · intro x hx
    exact List.mem_of_mem_take hx
  · intro h
    exact (List.take_sublist _ _).nodup h

/-- `List.find?` returns the marked element when everything before it fails
the predicate and it passes. -/
theorem find?_append_cons {α : Type} (p : α → Bool) (pre : List α) (x : α)
    (post : List α) (hpre : ∀ a ∈ pre, p a = false) (hx : p x = true) :
    (pre ++ x :: post).find? p = some x := by
  induction pre with
  | nil => simp [List.find?_cons, hx]
  | cons a l ih =>
    have ha := hpre a (List.mem_cons_self a l)
    simp only [List.cons_append, List.find?_cons, ha, cond_false]
    exact ih (fun b hb => hpre b (List.mem_cons_of_mem a hb))

/-- C5 counterexample: under the fixed keyword table, `_extract_theme` sends
`"teacher"` to `food` (the `tea` keyword of the earlier `food` row matches
first), not to `school`, and `"xylophone"` to `technology` (it contains
`phone`), not to `general`. -/
theorem C5_counterexample :
    extract_theme "teacher" = "food" ∧ extract_theme "teacher" ≠ "school" ∧
    extract_theme "xylophone" = "technology" ∧ extract_theme "xylophone" ≠ "general" :=
  ⟨by decide, by decide, by decide, by decide⟩

/-- C5 (amended): `_extract_theme` is a deterministic function of the
English term (two calls on equal terms return the same theme), and under
the fixed keyword table it maps `"teacher"` to `food`, `"passport"` to
`travel`, and `"xylophone"` to `technology`. -/
theorem C5_theme_classification :
    (∀ w₁ w₂ : String, w₁ = w₂ → extract_theme w₁ = extract_theme w₂) ∧
    extract_theme "teacher" = "food" ∧
    extract_theme "passport" = "travel" ∧
    extract_theme "xylophone" = "technology" :=
  ⟨fun _ _ h => congrArg extract_theme h, by decide, by decide, by decide⟩

/-- Witness for C5 at concrete terms. -/
theorem C5_theme_classification_witness :
    extract_theme "teacher" = extract_theme "teacher" ∧ extract_theme "teacher" = "food" :=
  ⟨C5_theme_classification.1 "teacher" "teacher" rfl, C5_theme_classification.2.1⟩

/-- C10: when the theme table splits as `pre ++ (theme, kws) :: post`, no
keyword of any `pre` row occurs in the lowercased term, and some keyword of
`kws` does, `_extract_theme` returns `theme`: the first matching theme in
the fixed table order wins. -/
theorem C10_theme_tiebreak (w theme : String) (kws : List String)
    (pre post : List (String × List String))
    (hsplit : themesTable = pre ++ (theme, kws) :: post)
    (hbefore : ∀ tk ∈ pre, tk.2.any (fun k => strContains (pyLower w) k) = false)
    (hmatch : kws.any (fun k => strContains (pyLower w) k) = true) :
    extract_theme w = theme := by
  simp only [extract_theme]
  rw [hsplit, find?_append_cons _ _ _ _ hbefore hmatch]

/-- Witness for C10: `"workday"` contains both the `time` keyword `day` and
the `work` keyword `work`, and is classified as `time`, the earlier row. -/
theorem C10_theme_tiebreak_witness :
    strContains (pyLower "workday") "day" = true ∧
    strContains (pyLower "workday") "work" = true ∧
    extract_theme "workday" = "time" :=
  ⟨by decide, by decide,
    C10_theme_tiebreak "workday" "time"
      ["time", "hour", "minute", "second", "day", "week", "month", "year"]
      [] themesTable.tail rfl
      (fun tk htk => absurd htk (List.not_mem_nil tk)) (by decide)⟩

/-- C7 counterexample: `"cat"` is neither longer than 8 characters nor
contains an affix substring, yet `_is_interesting_word` returns `true`
(the stop-word test is a fallback, not a conjunct). -/
theorem C7_counterexample :
    is_interesting_word "cat" = true ∧
    ¬ 8 < "cat".length ∧
    interestingPatterns.any (fun pattern => strContains (pyLower "cat") pattern) = false :=
  ⟨by decide, by decide, by decide⟩

/-- C7 (amended): `_is_interesting_word` returns true iff the term is longer
than 8 characters, OR its lowercase form contains one of the affix
substrings, OR its lowercase form is not in the fixed stop-word list (the
stop-word test only decides words failing the first two tests). -/
theorem C7_novelty_classifier (word : String) :
    is_interesting_word word = true ↔
      (8 < word.length ∨
        interestingPatterns.any (fun pattern => strContains (pyLower word) pattern) = true ∨
        pyLower word ∉ commonWordsTable) := by
  unfold is_interesting_word
  by_cases h1 : 8 < word.length
  · simp [h1]
  · by_cases h2 : interestingPatterns.any (fun pattern => strContains (pyLower word) pattern) = true
    · simp [h1, h2]
    · simp [h1, h2, List.elem_iff]

/-- C6 counterexample: on the entry with `englishTerm` `"hello"` and
`exampleSentence` `"Hello, how are you?"`, the fill-blank generation leaves
the sentence unchanged — the case-sensitive literal replace finds no
occurrence of `"hello"`, so `"Hello"` is NOT replaced by a blank marker. -/
theorem C6_counterexample :
    (fill_blank_sentence headChoice [helloEntry, catEntry, dogEntry] helloEntry).map
      (fun s => s.sentence) = some "Hello, how are you?" ∧
    strContains "Hello, how are you?" "_____" = false :=
  ⟨by decide, by decide⟩

/-- C6 (amended): the fill-blank replacement is a case-sensitive literal
substring match, so the entry with `englishTerm` `"hello"` and
`exampleSentence` `"Hello, how are you?"` yields the sentence unchanged
(no blank inserted); when the term occurs verbatim (`englishTerm`
`"Hello"`), it is replaced by the blank marker. -/
theorem C6_fill_blank_case_sensitive :
    pyReplace helloEntry.example_sentence helloEntry.english_word "_____" =
      "Hello, how are you?" ∧
    (fill_blank_sentence headChoice [helloEntry, catEntry, dogEntry] helloEntry).map
      (fun s => s.sentence) = some "Hello, how are you?" ∧
    (fill_blank_sentence headChoice [helloCapEntry, catEntry, dogEntry] helloCapEntry).map
      (fun s => s.sentence) = some "_____, how are you?" :=
  ⟨by decide, by decide, by decide⟩

/-- C8: whenever the generator call raises (JSON parse failure or any other
exception), `_generate_vocabulary` returns the fixed built-in fallback
vocabulary for the requested category and level instead of propagating the
failure, and each of the three built-in categories (`daily_life`, `work`,
`education`) carries at least one entry. -/
theorem C8_generation_fallback (stamp category : String)
    (user_level : Option EnglishLevel) (limit : Nat) (e : Unit) :
    generate_vocabulary (Except.error e) stamp category user_level limit =
      get_fallback_vocabulary category user_level limit ∧
    fallback_daily_life category ≠ [] ∧
    fallback_work category ≠ [] ∧
    fallback_education category ≠ [] :=
  ⟨rfl, by simp [fallback_daily_life], by simp [fallback_work], by simp [fallback_education]⟩

/-- Six copies of one entry (every entry equal to the others). -/
def sixEqualEntries : List VocabularyItem :=
  List.replicate 6 (mkEntry "w1" "alpha" "a" "s" EnglishLevel.basic)

/-- Six pairwise distinct entries. -/
def sixDistinctEntries : List VocabularyItem :=
  [mkEntry "w1" "alpha" "a" "sa" EnglishLevel.basic,
   mkEntry "w2" "beta" "b" "sb" EnglishLevel.basic,
   mkEntry "w3" "gamma" "c" "sc" EnglishLevel.basic,
   mkEntry "w4" "delta" "d" "sd" EnglishLevel.basic,
   mkEntry "w5" "epsilon" "e" "se" EnglishLevel.basic,
   mkEntry "w6" "zeta" "f" "sf" EnglishLevel.basic]

/-- An `Option`-valued `mapM` succeeds iff every element succeeds. -/
theorem mapM_isSome_iff {α β : Type} (f : α → Option β) :
    ∀ l : List α, ((l.mapM f).isSome ↔ ∀ x ∈ l, (f x).isSome)
  | [] => by
    rw [List.mapM_nil]
    simp
  | a :: l => by
    have ih := mapM_isSome_iff f l
    rw [List.mapM_cons]
    cases hfa : f a with
    | none => simp [hfa]
    | some b =>
      cases hml : l.mapM f with
      | none =>
        have hnall : ¬ ∀ x ∈ l, (f x).isSome := by
          intro hall
          have hsome := ih.mpr hall
          rw [hml] at hsome
          exact absurd hsome (by simp)
        push_neg at hnall
        obtain ⟨x, hx, hns⟩ := hnall
        simp [hfa, hml]
        exact ⟨x, hx, Option.not_isSome_iff_eq_none.mp hns⟩
      | some bs =>
        have hall := ih.mp (by rw [hml]; rfl)
        simp [hfa, hml]
        intro x hx
        exact hall x hx

/-- A fill-blank entry builds successfully iff some entry of the vocabulary
differs from the current word (the distractor pool is then non-empty). -/
theorem fill_blank_sentence_isSome_iff (choice : List String → Option String)
    (hc : IsChoice choice) (vocabulary : List VocabularyItem) (word : VocabularyItem) :
    (fill_blank_sentence choice vocabulary word).isSome ↔ ∃ w ∈ vocabulary, w ≠ word := by
  unfold fill_blank_sentence
  cases hch : choice ((vocabulary.filter (fun w => decide (w ≠ word))).map
      (fun w => w.english_word)) with
  | none =>
    have hall := List.filter_eq_nil_iff.mp (List.map_eq_nil_iff.mp ((hc _).1.mp hch))
    constructor
    · intro h
      simp at h
    · rintro ⟨w, hw, hne⟩
      exact absurd (decide_eq_true hne) (hall w hw)
  | some d =>
    constructor
    · intro _
      by_contra hno
      push_neg at hno
      have hfil : vocabulary.filter (fun w => decide (w ≠ word)) = [] := by
        rw [List.filter_eq_nil_iff]
        intro a ha
        simp [hno a ha]
      have hsome : choice [] = some d := by
        rw [← hch]
        congr 1
        rw [hfil, List.map_nil]
      have hnone := (hc ([] : List String)).1.mpr rfl
      rw [hnone] at hsome
      exact Option.noConfusion hsome
    · intro _
      rfl

/-- Below the fill-blank threshold the basic builder returns just the
matching block. -/
theorem create_basic_eq_of_short (choice : List String → Option String)
    (vocabulary : List VocabularyItem) (h : ¬ 3 ≤ vocabulary.length) :
    create_basic_exercises choice vocabulary = some (matching_block vocabulary) := by
  unfold create_basic_exercises
  simp [h]

/-- At or above the fill-blank threshold the basic builder appends a
fill-blank exercise built over the first three entries. -/
theorem create_basic_eq_of_long (choice : List String → Option String)
    (vocabulary : List VocabularyItem) (h : 3 ≤ vocabulary.length) :
    create_basic_exercises choice vocabulary =
      ((vocabulary.take 3).mapM (fill_blank_sentence choice vocabulary)).map
        (fun sentences => matching_block vocabulary ++ [Exercise.fill_blank sentences]) := by
  unfold create_basic_exercises
  simp only [h, if_pos]
  cases (vocabulary.take 3).mapM (fill_blank_sentence choice vocabulary) <;> rfl

/-- Whenever the vocabulary is short or holds two different entries, the
basic builder succeeds, and its exercise tags are the threshold-gated
matching and fill-blank tags. -/
theorem create_basic_some_of (choice : List String → Option String)
    (hc : IsChoice choice) (vocabulary : List VocabularyItem)
    (hok : vocabulary.length < 3 ∨ ∃ x ∈ vocabulary, ∃ y ∈ vocabulary, x ≠ y) :
    ∃ lb, create_basic_exercises choice vocabulary = some lb ∧
      lb.map Exercise.etype =
        (if 4 ≤ vocabulary.length then [ExerciseType.matching] else []) ++
        (if 3 ≤ vocabulary.length then [ExerciseType.fill_blank] else []) := by
  by_cases h3 : 3 ≤ vocabulary.length
  · have hex : ∃ x ∈ vocabulary, ∃ y ∈ vocabulary, x ≠ y := by
      rcases hok with h | h
      · omega
      · exact h
    have hsome : ((vocabulary.take 3).mapM (fill_blank_sentence choice vocabulary)).isSome := by
      rw [mapM_isSome_iff]
      intro word hword
      rw [fill_blank_sentence_isSome_iff choice hc]
      obtain ⟨x, hx, y, hy, hxy⟩ := hex
      by_cases hwx : x = word
      · exact ⟨y, hy, fun hyw => hxy (hwx.trans hyw.symm)⟩
      · exact ⟨x, hx, hwx⟩
    obtain ⟨sentences, hs⟩ := Option.isSome_iff_exists.mp hsome
    refine ⟨matching_block vocabulary ++ [Exercise.fill_blank sentences], ?_, ?_⟩
    · rw [create_basic_eq_of_long choice vocabulary h3, hs]
      rfl
    · unfold matching_block
      by_cases h4 : 4 ≤ vocabulary.length <;> simp [h3, h4, Exercise.etype]
  · have h4 : ¬ 4 ≤ vocabulary.length := by omega
    refine ⟨matching_block vocabulary, create_basic_eq_of_short choice vocabulary h3, ?_⟩
    unfold matching_block
    simp [h3, h4]

/-- C9: for every vocabulary of length at least 3 containing two non-equal
entries, the basic-exercise construction (whose `fill_blank` part draws a
distractor with `random.choice` from the entries different from the current
one) completes without raising; when every entry equals the others, it
raises (`none`) instead of returning exercises. -/
theorem C9_distractor_safety (choice : List String → Option String)
    (hc : IsChoice choice) (vocabulary : List VocabularyItem)
    (hlen : 3 ≤ vocabulary.length) :
    ((∃ x ∈ vocabulary, ∃ y ∈ vocabulary, x ≠ y) →
      (create_basic_exercises choice vocabulary).isSome) ∧
    ((∀ x ∈ vocabulary, ∀ y ∈ vocabulary, x = y) →
      create_basic_exercises choice vocabulary = none) := by
  constructor
  · intro hex
    obtain ⟨lb, hlb, -⟩ := create_basic_some_of choice hc vocabulary (Or.inr hex)
    rw [hlb]
    rfl
  · intro hall
    rw [create_basic_eq_of_long choice vocabulary hlen]
    have hne : vocabulary ≠ [] := by
      intro h
      rw [h] at hlen
      simp at hlen
    obtain ⟨w, ws, hv⟩ := List.exists_cons_of_ne_nil hne
    have hwmem : w ∈ vocabulary.take 3 := by
      rw [hv]
      simp [List.take]
    have hnone : ((vocabulary.take 3).mapM (fill_blank_sentence choice vocabulary)) = none := by
      rw [← Option.not_isSome_iff_eq_none]
      rw [mapM_isSome_iff]
      intro hallsome
      have hw := hallsome w hwmem
      rw [fill_blank_sentence_isSome_iff choice hc] at hw
      obtain ⟨z, hz, hzw⟩ := hw
      exact hzw (hall z hz w (hv ▸ List.mem_cons_self w ws))
    rw [hnone]
    rfl

/-- Witness for C9 on concrete three-entry vocabularies: three distinct
entries build successfully; three equal copies raise. -/
theorem C9_distractor_safety_witness :
    (create_basic_exercises headChoice [helloEntry, catEntry, dogEntry]).isSome ∧
    create_basic_exercises headChoice [helloEntry, helloEntry, helloEntry] = none :=
  ⟨(C9_distractor_safety headChoice headChoice_isChoice _ (by decide)).1
      ⟨helloEntry, by decide, catEntry, by decide, by decide⟩,
   (C9_distractor_safety headChoice headChoice_isChoice _ (by decide)).2 (by decide)⟩

/-- Tag projection of the `sentence_creation` block. -/
theorem sentence_creation_block_etype (v : List VocabularyItem) :
    (sentence_creation_block v).map Exercise.etype =
      if 5 ≤ v.length then [ExerciseType.sentence_creation] else [] := by
  unfold sentence_creation_block
  split <;> rfl

/-- Tag projection of the `synonyms` block. -/
theorem synonyms_block_etype (v : List VocabularyItem) :
    (synonyms_block v).map Exercise.etype =
      if 4 ≤ v.length then [ExerciseType.synonyms] else [] := by
  unfold synonyms_block
  split <;> rfl

/-- Tag projection of the `debate` block. -/
theorem debate_block_etype (v : List VocabularyItem) :
    (debate_block v).map Exercise.etype =
      if 3 ≤ v.length then [ExerciseType.debate] else [] := by
  unfold debate_block
  split <;> rfl

/-- Tag projection of the `reverse_translation` block. -/
theorem reverse_translation_block_etype (v : List VocabularyItem) :
    (reverse_translation_block v).map Exercise.etype =
      if 4 ≤ v.length then [ExerciseType.reverse_translation] else [] := by
  unfold reverse_translation_block
  split <;> rfl

/-- The intermediate builder appends its two blocks to the basic result. -/
theorem create_intermediate_eq (choice : List String → Option String)
    (vocabulary : List VocabularyItem) (lb : List Exercise)
    (hlb : create_basic_exercises choice vocabulary = some lb) :
    create_intermediate_exercises choice vocabulary =
      some (lb ++ sentence_creation_block vocabulary ++ synonyms_block vocabulary) := by
  unfold create_intermediate_exercises
  rw [hlb]
  rfl

/-- The advanced builder appends its two blocks to the intermediate
result. -/
theorem create_advanced_eq (choice : List String → Option String)
    (vocabulary : List VocabularyItem) (lb : List Exercise)
    (hlb : create_basic_exercises choice vocabulary = some lb) :
    create_advanced_exercises choice vocabulary =
      some (lb ++ sentence_creation_block vocabulary ++ synonyms_block vocabulary ++
        debate_block vocabulary ++ reverse_translation_block vocabulary) := by
  unfold create_advanced_exercises
  rw [create_intermediate_eq choice vocabulary lb hlb]
  rfl

/-- C2 counterexample: a six-entry vocabulary whose entries are all equal
makes the advanced build raise (the fill-blank distractor pool is empty)
instead of returning the six exercise types. -/
theorem C2_counterexample :
    sixEqualEntries.length = 6 ∧
    create_advanced_exercises headChoice sixEqualEntries = none :=
  ⟨by decide, by decide⟩

/-- C2 (amended): for every vocabulary list on which the builder does not
raise — any list shorter than 3 or containing two non-equal entries — the
three tiers build successfully, each higher tier extends the one below, and
each exercise type appears exactly when its entry-count threshold is met
(matching needs at least 4 entries, fill_blank 3, sentence_creation 5,
synonyms 4, debate 3, reverse_translation 4); in particular a 2-entry
vocabulary builds an empty basic list and a 6-entry one builds exactly the
six types at the advanced level. -/
theorem C2_exercise_tiers (choice : List String → Option String) (hc : IsChoice choice)
    (vocabulary : List VocabularyItem)
    (hok : vocabulary.length < 3 ∨ ∃ x ∈ vocabulary, ∃ y ∈ vocabulary, x ≠ y) :
    ∃ lb li la : List Exercise,
      create_basic_exercises choice vocabulary = some lb ∧
      create_intermediate_exercises choice vocabulary = some li ∧
      create_advanced_exercises choice vocabulary = some la ∧
      (∃ t, li = lb ++ t) ∧ (∃ t, la = li ++ t) ∧
      ((ExerciseType.matching ∈ la.map Exercise.etype) ↔ 4 ≤ vocabulary.length) ∧
      ((ExerciseType.fill_blank ∈ la.map Exercise.etype) ↔ 3 ≤ vocabulary.length) ∧
      ((ExerciseType.sentence_creation ∈ la.map Exercise.etype) ↔ 5 ≤ vocabulary.length) ∧
      ((ExerciseType.synonyms ∈ la.map Exercise.etype) ↔ 4 ≤ vocabulary.length) ∧
      ((ExerciseType.debate ∈ la.map Exercise.etype) ↔ 3 ≤ vocabulary.length) ∧
      ((ExerciseType.reverse_translation ∈ la.map Exercise.etype) ↔ 4 ≤ vocabulary.length) ∧
      (vocabulary.length = 2 → lb = []) ∧
      (vocabulary.length = 6 → la.map Exercise.etype =
        [ExerciseType.matching, ExerciseType.fill_blank, ExerciseType.sentence_creation,
         ExerciseType.synonyms, ExerciseType.debate, ExerciseType.reverse_translation]) := by
  obtain ⟨lb, hlb, hlbty⟩ := create_basic_some_of choice hc vocabulary hok
  have hlaty : (lb ++ sentence_creation_block vocabulary ++ synonyms_block vocabulary ++
      debate_block vocabulary ++ reverse_translation_block vocabulary).map Exercise.etype =
      (if 4 ≤ vocabulary.length then [ExerciseType.matching] else []) ++
      (if 3 ≤ vocabulary.length then [ExerciseType.fill_blank] else []) ++
      ((if 5 ≤ vocabulary.length then [ExerciseType.sentence_creation] else []) ++
       ((if 4 ≤ vocabulary.length then [ExerciseType.synonyms] else []) ++
        ((if 3 ≤ vocabulary.length then [ExerciseType.debate] else []) ++
         (if 4 ≤ vocabulary.length then [ExerciseType.reverse_translation] else [])))) := by
    simp only [List.map_append, hlbty, sentence_creation_block_etype, synonyms_block_etype,
      debate_block_etype, reverse_translation_block_etype, List.append_assoc]
  refine ⟨lb, _, _, hlb, create_intermediate_eq choice vocabulary lb hlb,
    create_advanced_eq choice vocabulary lb hlb,
    ⟨sentence_creation_block vocabulary ++ synonyms_block vocabulary, by
      rw [List.append_assoc]⟩,
    ⟨debate_block vocabulary ++ reverse_translation_block vocabulary, by
      rw [List.append_assoc]⟩,
    ?_, ?_, ?_, ?_, ?_, ?_, ?_, ?_⟩
  · rw [hlaty]
    by_cases h3 : 3 ≤ vocabulary.length <;> by_cases h4 : 4 ≤ vocabulary.length <;>
      by_cases h5 : 5 ≤ vocabulary.length <;> simp [h3, h4, h5]
  · rw [hlaty]
    by_cases h3 : 3 ≤ vocabulary.length <;> by_cases h4 : 4 ≤ vocabulary.length <;>
      by_cases h5 : 5 ≤ vocabulary.length <;> simp [h3, h4, h5]
  · rw [hlaty]
    by_cases h3 : 3 ≤ vocabulary.length <;> by_cases h4 : 4 ≤ vocabulary.length <;>
      by_cases h5 : 5 ≤ vocabulary.length <;> simp [h3, h4, h5]
  · rw [hlaty]
    by_cases h3 : 3 ≤ vocabulary.length <;> by_cases h4 : 4 ≤ vocabulary.length <;>
      by_cases h5 : 5 ≤ vocabulary.length <;> simp [h3, h4, h5]
  · rw [hlaty]
    by_cases h3 : 3 ≤ vocabulary.length <;> by_cases h4 : 4 ≤ vocabulary.length <;>
      by_cases h5 : 5 ≤ vocabulary.length <;> simp [h3, h4, h5]
  · rw [hlaty]
    by_cases h3 : 3 ≤ vocabulary.length <;> by_cases h4 : 4 ≤ vocabulary.length <;>
      by_cases h5 : 5 ≤ vocabulary.length <;> simp [h3, h4, h5]
  · intro h2
    have h3 : ¬ 3 ≤ vocabulary.length := by omega
    have h4 : ¬ 4 ≤ vocabulary.length := by omega
    simp [h3, h4] at hlbty
    exact hlbty
  · intro h6
    have h3 : 3 ≤ vocabulary.length := by omega
    have h4 : 4 ≤ vocabulary.length := by omega
    have h5 : 5 ≤ vocabulary.length := by omega
    rw [hlaty]
    simp [h3, h4, h5]

/-- Witness for C2 at a concrete six-entry vocabulary of distinct entries. -/
theorem C2_exercise_tiers_witness :
    ∃ lb li la : List Exercise,
      create_basic_exercises headChoice sixDistinctEntries = some lb ∧
      create_intermediate_exercises headChoice sixDistinctEntries = some li ∧
      create_advanced_exercises headChoice sixDistinctEntries = some la ∧
      (∃ t, li = lb ++ t) ∧ (∃ t, la = li ++ t) ∧
      ((ExerciseType.matching ∈ la.map Exercise.etype) ↔ 4 ≤ sixDistinctEntries.length) ∧
      ((ExerciseType.fill_blank ∈ la.map Exercise.etype) ↔ 3 ≤ sixDistinctEntries.length) ∧
      ((ExerciseType.sentence_creation ∈ la.map Exercise.etype) ↔
        5 ≤ sixDistinctEntries.length) ∧
      ((ExerciseType.synonyms ∈ la.map Exercise.etype) ↔ 4 ≤ sixDistinctEntries.length) ∧
      ((ExerciseType.debate ∈ la.map Exercise.etype) ↔ 3 ≤ sixDistinctEntries.length) ∧
      ((ExerciseType.reverse_translation ∈ la.map Exercise.etype) ↔
        4 ≤ sixDistinctEntries.length) ∧
      (sixDistinctEntries.length = 2 → lb = []) ∧
      (sixDistinctEntries.length = 6 → la.map Exercise.etype =
        [ExerciseType.matching, ExerciseType.fill_blank, ExerciseType.sentence_creation,
         ExerciseType.synonyms, ExerciseType.debate, ExerciseType.reverse_translation]) :=
  C2_exercise_tiers headChoice headChoice_isChoice sixDistinctEntries
    (Or.inr ⟨mkEntry "w1" "alpha" "a" "sa" EnglishLevel.basic, by decide,
      mkEntry "w2" "beta" "b" "sb" EnglishLevel.basic, by decide, by decide⟩)

/-- Under the same no-raise condition the level dispatch succeeds for every
level. -/
theorem exercises_for_some (choice : List String → Option String) (hc : IsChoice choice)
    (vocabulary : List VocabularyItem) (user_level : EnglishLevel)
    (hok : vocabulary.length < 3 ∨ ∃ x ∈ vocabulary, ∃ y ∈ vocabulary, x ≠ y) :
    ∃ ex, exercises_for choice user_level vocabulary = some ex := by
  obtain ⟨lb, hlb, -⟩ := create_basic_some_of choice hc vocabulary hok
  cases user_level with
  | basic => exact ⟨lb, hlb⟩
  | intermediate => exact ⟨_, create_intermediate_eq choice vocabulary lb hlb⟩
  | advanced => exact ⟨_, create_advanced_eq choice vocabulary lb hlb⟩

/-- C3 counterexample: a non-empty vocabulary (three equal entries) on which
`create_vocabulary_lesson` raises (`none`): it returns neither an
error-tagged result nor a lesson, against the claim that every non-empty
vocabulary yields a lesson. -/
theorem C3_counterexample :
    ([helloEntry, helloEntry, helloEntry] : List VocabularyItem) ≠ [] ∧
    create_vocabulary_lesson headChoice [helloEntry, helloEntry, helloEntry]
      EnglishLevel.basic = none :=
  ⟨by decide, by decide⟩

/-- C3 (amended): `create_vocabulary_lesson` returns an error-tagged result
exactly on empty vocabulary; for every non-empty vocabulary on which the
exercise construction does not raise (any shorter than 3 entries or holding
two non-equal entries), it returns a lesson whose `estimated_time` is twice
the word count with the fixed unit string, and whose `thematic_groups`
retain at most the first 3 distinct themes, each with at most 3 example
words plus the full per-theme count. -/
theorem C3_lesson_assembly (choice : List String → Option String) (hc : IsChoice choice)
    (vocabulary : List VocabularyItem) (user_level : EnglishLevel)
    (hok : vocabulary.length < 3 ∨ ∃ x ∈ vocabulary, ∃ y ∈ vocabulary, x ≠ y) :
    ((∃ msg, create_vocabulary_lesson choice vocabulary user_level =
        some (LessonResult.error msg)) ↔ vocabulary = []) ∧
    (vocabulary ≠ [] →
      ∃ lesson, create_vocabulary_lesson choice vocabulary user_level =
          some (LessonResult.lesson lesson) ∧
        lesson.estimated_time = toString (vocabulary.length * 2) ++ " minutos" ∧
        lesson.thematic_groups.length ≤ 3 ∧
        lesson.thematic_groups.map (fun g => g.theme) =
          (dedupKeys (vocabulary.map (fun w => extract_theme w.english_word))).take 3 ∧
        (∀ g ∈ lesson.thematic_groups,
          g.words.length ≤ 3 ∧
          g.words = ((vocabulary.filter
            (fun w => decide (extract_theme w.english_word = g.theme))).take 3).map
              (fun w => w.english_word) ∧
          g.count = (vocabulary.filter
            (fun w => decide (extract_theme w.english_word = g.theme))).length)) := by
  by_cases hv : vocabulary = []
  · constructor
    · constructor
      · intro _
        exact hv
      · intro _
        refine ⟨"No hay vocabulario disponible", ?_⟩
        unfold create_vocabulary_lesson
        rw [if_pos hv]
        rfl
    · intro hne
      exact absurd hv hne
  · obtain ⟨ex, hex⟩ := exercises_for_some choice hc vocabulary user_level hok
    have hres : create_vocabulary_lesson choice vocabulary user_level =
        some (LessonResult.lesson
          { title := "Vocabulario: " ++
              ((vocabulary.head?.map (fun w => w.category)).getD "General"),
            description := "Lección de " ++ toString vocabulary.length ++
              " palabras para nivel " ++ user_level.value,
            vocabulary := vocabulary,
            thematic_groups :=
              ((dedupKeys (vocabulary.map (fun w => extract_theme w.english_word))).take 3).map
                (fun theme =>
                  let words := vocabulary.filter
                    (fun w => decide (extract_theme w.english_word = theme))
                  { theme := theme,
                    words := (words.take 3).map (fun w => w.english_word),
                    count := words.length }),
            exercises := ex,
            estimated_time := toString (vocabulary.length * 2) ++ " minutos",
            learning_objectives := ["Memorizar palabras clave", "Usar palabras en contexto",
              "Practicar pronunciación", "Aplicar en conversaciones"] }) := by
      unfold create_vocabulary_lesson
      rw [if_neg hv, hex]
      rfl
    constructor
    · constructor
      · rintro ⟨msg, hmsg⟩
        rw [hres] at hmsg
        exact absurd (Option.some_inj.mp hmsg) (by simp)
      · intro h
        exact absurd h hv
    · intro _
      refine ⟨_, hres, rfl, ?_, ?_, ?_⟩
      · simp only [List.length_map]
        exact (List.length_take_le 3 _)
      · rw [List.map_map]
        exact List.map_id'' (fun t => rfl) _
      · intro g hg
        obtain ⟨t, ht, hgt⟩ := List.mem_map.mp hg
        subst hgt
        refine ⟨?_, rfl, rfl⟩
        simp only [List.length_map]
        exact (List.length_take_le 3 _)

/-- Witness for C3 at a concrete three-entry vocabulary. -/
theorem C3_lesson_assembly_witness :
    ∃ lesson, create_vocabulary_lesson headChoice [helloEntry, catEntry, dogEntry]
        EnglishLevel.basic = some (LessonResult.lesson lesson) ∧
      lesson.estimated_time = "6 minutos" := by
  obtain ⟨lesson, h1, h2, -⟩ :=
    (C3_lesson_assembly headChoice headChoice_isChoice [helloEntry, catEntry, dogEntry]
      EnglishLevel.basic
      (Or.inr ⟨helloEntry, by decide, catEntry, by decide, by decide⟩)).2 (by decide)
  exact ⟨lesson, h1, h2.trans (by decide)⟩

/-- A concrete ten-entry pool with distinct ids: 4 basic, 3 intermediate,
3 advanced entries. -/
def pool10 : List VocabularyItem :=
  [mkEntry "b1" "alpha" "a" "s" EnglishLevel.basic,
   mkEntry "b2" "beta" "b" "s" EnglishLevel.basic,
   mkEntry "i1" "gamma" "c" "s" EnglishLevel.intermediate,
   mkEntry "a1" "delta" "d" "s" EnglishLevel.advanced,
   mkEntry "b3" "epsilon" "e" "s" EnglishLevel.basic,
   mkEntry "i2" "zeta" "f" "s" EnglishLevel.intermediate,
   mkEntry "a2" "eta" "g" "s" EnglishLevel.advanced,
   mkEntry "b4" "theta" "h" "s" EnglishLevel.basic,
   mkEntry "i3" "iota" "i" "s" EnglishLevel.intermediate,
   mkEntry "a3" "kappa" "j" "s" EnglishLevel.advanced]

/-- Every element the deduplication loop keeps comes from its input. -/
theorem dedup_by_id_subset : ∀ (ws : List VocabularyItem) (seen : List String),
    ∀ x ∈ dedup_by_id ws seen, x ∈ ws
  | [], _ => by simp [dedup_by_id]
  | w :: ws, seen => by
    intro x hx
    rw [dedup_by_id] at hx
    split at hx
    · exact List.mem_cons_of_mem w (dedup_by_id_subset ws seen x hx)
    · rcases List.mem_cons.mp hx with h | h
      · exact h ▸ List.mem_cons_self w ws
      · exact List.mem_cons_of_mem w (dedup_by_id_subset ws _ x h)

/-- No kept element carries an id that was already seen on entry. -/
theorem dedup_by_id_id_fresh : ∀ (ws : List VocabularyItem) (seen : List String),
    ∀ x ∈ dedup_by_id ws seen, x.id ∉ seen
  | [], _ => by simp [dedup_by_id]
  | w :: ws, seen => by
    intro x hx
    rw [dedup_by_id] at hx
    split at hx
    next h => exact dedup_by_id_id_fresh ws seen x hx
    next h =>
      rcases List.mem_cons.mp hx with heq | hmem
      · rw [heq]
        exact h
      · have hfresh := dedup_by_id_id_fresh ws (w.id :: seen) x hmem
        exact fun hc => hfresh (List.mem_cons_of_mem _ hc)

/-- The ids of the deduplication loop's output are pairwise distinct. -/
theorem dedup_by_id_ids_nodup : ∀ (ws : List VocabularyItem) (seen : List String),
    ((dedup_by_id ws seen).map (fun w => w.id)).Nodup
  | [], _ => by simp [dedup_by_id]
  | w :: ws, seen => by
    rw [dedup_by_id]
    split
    · exact dedup_by_id_ids_nodup ws seen
    · rw [List.map_cons]
      refine List.nodup_cons.mpr ⟨?_, dedup_by_id_ids_nodup ws (w.id :: seen)⟩
      intro hmem
      obtain ⟨y, hy, hyid⟩ := List.mem_map.mp hmem
      have hfresh := dedup_by_id_id_fresh ws (w.id :: seen) y hy
      exact hfresh (by rw [hyid]; exact List.mem_cons_self _ _)

/-- The final seen-id set holds exactly the kept ids plus the initial
ones. -/
theorem seen_ids_after_mem : ∀ (ws : List VocabularyItem) (seen : List String) (i : String),
    (i ∈ seen_ids_after ws seen ↔ i ∈ (dedup_by_id ws seen).map (fun w => w.id) ∨ i ∈ seen)
  | [], seen, i => by simp [seen_ids_after, dedup_by_id]
  | w :: ws, seen, i => by
    rw [seen_ids_after, dedup_by_id]
    split
    next h => exact seen_ids_after_mem ws seen i
    next h =>
      rw [seen_ids_after_mem ws (w.id :: seen) i, List.map_cons]
      constructor
      · rintro (hm | hw)
        · exact Or.inl (List.mem_cons_of_mem _ hm)
        · rcases List.mem_cons.mp hw with he | hsn
          · exact Or.inl (he ▸ List.mem_cons_self _ _)
          · exact Or.inr hsn
      · rintro (hm | hsn)
        · rcases List.mem_cons.mp hm with he | hm2
          · exact Or.inr (he ▸ List.mem_cons_self _ _)
          · exact Or.inl hm2
        · exact Or.inr (List.mem_cons_of_mem _ hsn)

/-- Elements of an emptiness-gated draw come from the group. -/
theorem gated_sample_subset (sample : List VocabularyItem → Nat → List VocabularyItem)
    (hs : IsSampler sample) (group : List VocabularyItem) (k : Nat) :
    ∀ x ∈ (if group.isEmpty then [] else sample group k), x ∈ group := by
  intro x hx
  split at hx
  · simp at hx
  · exact (hs group k).2.1 x hx

/-- Every entry collected by the four passes comes from the pool (nothing is
fabricated). -/
theorem selection_union_subset (sample : List VocabularyItem → Nat → List VocabularyItem)
    (hs : IsSampler sample) (vocabulary : List VocabularyItem) (limit : Nat) :
    ∀ x ∈ selection_union sample vocabulary limit, x ∈ vocabulary := by
  intro x hx
  unfold selection_union at hx
  rcases List.mem_append.mp hx with hx | hx4
  · rcases List.mem_append.mp hx with hx | hx3
    · rcases List.mem_append.mp hx with hx1 | hx2
      · unfold complexity_pass at hx1
        obtain ⟨l, hl, hxl⟩ := List.mem_flatten.mp hx1
        obtain ⟨comp, -, hcomp⟩ := List.mem_map.mp hl
        rw [← hcomp] at hxl
        exact List.mem_of_mem_filter (gated_sample_subset sample hs _ _ x hxl)
      · unfold theme_pass at hx2
        obtain ⟨l, hl, hxl⟩ := List.mem_flatten.mp hx2
        obtain ⟨theme, -, htheme⟩ := List.mem_map.mp hl
        rw [← htheme] at hxl
        exact List.mem_of_mem_filter (gated_sample_subset sample hs _ _ x hxl)
    · unfold practical_pass at hx3
      exact List.mem_of_mem_filter (gated_sample_subset sample hs _ _ x hx3)
  · unfold interesting_pass at hx4
    exact List.mem_of_mem_filter (gated_sample_subset sample hs _ _ x hx4)

/-- Counting bound for the backfill: when the pool ids are distinct and the
seen set is exactly the ids of the deduplicated selection `U`, at least
`pool.length - U.length` unseen entries remain. -/
theorem remaining_length_ge (pool : List VocabularyItem)
    (hids : (pool.map (fun w => w.id)).Nodup)
    (U : List VocabularyItem) (seen : List String)
    (hU : (U.map (fun w => w.id)).Nodup)
    (hseen : ∀ i, i ∈ seen ↔ i ∈ U.map (fun w => w.id)) :
    pool.length - U.length ≤ (pool.filter (fun w => decide (w.id ∉ seen))).length := by
  have hsplit : pool.length =
      (pool.filter (fun w => decide (w.id ∉ seen))).length +
      (pool.filter (fun w => !decide (w.id ∉ seen))).length :=
    List.length_eq_length_filter_add (fun w => decide (w.id ∉ seen))
  have hinlen : (pool.filter (fun w => !decide (w.id ∉ seen))).length ≤ U.length := by
    have hnodup : ((pool.filter (fun w => !decide (w.id ∉ seen))).map
        (fun w => w.id)).Nodup :=
      ((List.filter_sublist pool).map (fun w => w.id)).nodup hids
    have hsub : (pool.filter (fun w => !decide (w.id ∉ seen))).map (fun w => w.id) ⊆
        U.map (fun w => w.id) := by
      intro i hi
      obtain ⟨x, hx, hxi⟩ := List.mem_map.mp hi
      have hpred := List.of_mem_filter hx
      have hxin : x.id ∈ seen := by
        by_contra hnot
        rw [decide_eq_true hnot] at hpred
        simp at hpred
      rw [← hxi]
      exact (hseen x.id).mp hxin
    have := (hnodup.subperm hsub).length_le
    simpa using this
  have hlen : ((pool.filter (fun w => !decide (w.id ∉ seen))).map
      (fun w => w.id)).length = (pool.filter (fun w => !decide (w.id ∉ seen))).length :=
    List.length_map _ _
  omega

/-- Unfolding of `_intelligent_selection` on a pool larger than the
limit. -/
theorem intelligent_selection_eq_of_big
    (sample : List VocabularyItem → Nat → List VocabularyItem)
    (vocabulary : List VocabularyItem) (limit : Nat) (h : ¬ vocabulary.length ≤ limit) :
    intelligent_selection sample vocabulary limit =
      (selection_backfill sample vocabulary limit
        (dedup_by_id (selection_union sample vocabulary limit) [])
        (seen_ids_after (selection_union sample vocabulary limit) [])).take limit := by
  unfold intelligent_selection
  rw [if_neg h]

/-- C1: for every pool with pairwise distinct ids and every positive target,
`_intelligent_selection` returns `min(targetCount, len(pool))` entries with
pairwise unique ids, all drawn from the pool; a pool no larger than the
target is returned unchanged, and an empty pool yields an empty list. -/
theorem C1_selection_contract (sample : List VocabularyItem → Nat → List VocabularyItem)
    (hs : IsSampler sample) (pool : List VocabularyItem) (limit : Nat)
    (hlim : 0 < limit) (hids : (pool.map (fun w => w.id)).Nodup) :
    (intelligent_selection sample pool limit).length = min limit pool.length ∧
    ((intelligent_selection sample pool limit).map (fun w => w.id)).Nodup ∧
    (∀ x ∈ intelligent_selection sample pool limit, x ∈ pool) ∧
    (pool.length ≤ limit → intelligent_selection sample pool limit = pool) ∧
    intelligent_selection sample [] limit = [] := by
  have hempty : intelligent_selection sample [] limit = [] := by
    unfold intelligent_selection
    simp
  by_cases hle : pool.length ≤ limit
  · have heq : intelligent_selection sample pool limit = pool := by
      unfold intelligent_selection
      rw [if_pos hle]
    rw [heq]
    exact ⟨(Nat.min_eq_right hle).symm, hids, fun x hx => hx, fun _ => rfl, hempty⟩
  · have hlt : limit < pool.length := Nat.lt_of_not_le hle
    have hpoolnd : pool.Nodup := List.Nodup.of_map _ hids
    rw [intelligent_selection_eq_of_big sample pool limit hle]
    generalize hseldef : selection_union sample pool limit = selected
    have hUids : ((dedup_by_id selected []).map (fun w => w.id)).Nodup :=
      dedup_by_id_ids_nodup selected []
    have hUsub : ∀ x ∈ dedup_by_id selected [], x ∈ pool := fun x hx =>
      selection_union_subset sample hs pool limit x
        (by rw [hseldef]; exact dedup_by_id_subset selected [] x hx)
    have hseen_iff : ∀ i, i ∈ seen_ids_after selected [] ↔
        i ∈ (dedup_by_id selected []).map (fun w => w.id) := by
      intro i
      have h := seen_ids_after_mem selected [] i
      simpa using h
    generalize hUdef : dedup_by_id selected [] = U at *
    generalize hsndef : seen_ids_after selected [] = seen at *
    have hremlen : pool.length - U.length ≤
        (pool.filter (fun w => decide (w.id ∉ seen))).length :=
      remaining_length_ge pool hids U seen hUids hseen_iff
    generalize hremdef : pool.filter (fun w => decide (w.id ∉ seen)) = remaining at *
    have hremsub : ∀ x ∈ remaining, x ∈ pool := by
      intro x hx
      rw [← hremdef] at hx
      exact List.mem_of_mem_filter hx
    have hremnotseen : ∀ x ∈ remaining, x.id ∉ seen := by
      intro x hx
      rw [← hremdef] at hx
      have := List.of_mem_filter hx
      exact of_decide_eq_true this
    have hremnd : remaining.Nodup := by
      rw [← hremdef]
      exact (List.filter_sublist pool).nodup hpoolnd
    have hinj : ∀ x ∈ pool, ∀ y ∈ pool, x.id = y.id → x = y := fun x hx y hy hxy =>
      List.inj_on_of_nodup_map hids hx hy hxy
    by_cases hUlt : U.length < limit
    · have hremne : ¬ remaining.isEmpty := by
        intro hemp
        have : remaining = [] := List.isEmpty_iff.mp hemp
        rw [this] at hremlen
        simp at hremlen
        omega
      have hbf : selection_backfill sample pool limit U seen =
          U ++ sample remaining (min (limit - U.length) remaining.length) := by
        simp only [selection_backfill]
        rw [if_pos hUlt, hremdef, if_neg hremne]
      have hneed : limit - U.length ≤ remaining.length := by omega
      have hslen : (sample remaining (min (limit - U.length) remaining.length)).length =
          limit - U.length := by
        rw [(hs remaining _).1]
        omega
      have hsmem : ∀ x ∈ sample remaining (min (limit - U.length) remaining.length),
          x ∈ remaining := (hs remaining _).2.1
      have hsnd : (sample remaining (min (limit - U.length) remaining.length)).Nodup :=
        (hs remaining _).2.2 hremnd
      have hsidnd : ((sample remaining (min (limit - U.length) remaining.length)).map
          (fun w => w.id)).Nodup := by
        refine List.Nodup.map_on ?_ hsnd
        intro x hx y hy hxy
        exact hinj x (hremsub x (hsmem x hx)) y (hremsub y (hsmem y hy)) hxy
      have happnd : ((U ++ sample remaining (min (limit - U.length) remaining.length)).map
          (fun w => w.id)).Nodup := by
        rw [List.map_append]
        refine List.Nodup.append hUids hsidnd ?_
        intro i hiU hiS
        obtain ⟨x, hx, hxi⟩ := List.mem_map.mp hiS
        have hxseen : x.id ∉ seen := hremnotseen x (hsmem x hx)
        exact hxseen ((hseen_iff x.id).mpr (hxi ▸ hiU))
      have hlen : (U ++ sample remaining
          (min (limit - U.length) remaining.length)).length = limit := by
        rw [List.length_append, hslen]
        omega
      rw [hbf]
      refine ⟨?_, ?_, ?_, fun h => absurd h hle, hempty⟩
      · rw [List.length_take, hlen]
        omega
      · rw [List.map_take]
        exact (List.take_sublist _ _).nodup happnd
      · intro x hx
        have hx2 := List.mem_of_mem_take hx
        rcases List.mem_append.mp hx2 with h | h
        · exact hUsub x h
        · exact hremsub x (hsmem x h)
    · have hbf : selection_backfill sample pool limit U seen = U := by
        simp only [selection_backfill]
        rw [if_neg hUlt]
      rw [hbf]
      refine ⟨?_, ?_, ?_, fun h => absurd h hle, hempty⟩
      · rw [List.length_take]
        omega
      · rw [List.map_take]
        exact (List.take_sublist _ _).nodup hUids
      · intro x hx
        exact hUsub x (List.mem_of_mem_take hx)

/-- Witness for C1 at a concrete ten-entry pool and target 3. -/
theorem C1_selection_contract_witness :
    (intelligent_selection takeSample pool10 3).length = min 3 pool10.length ∧
    ((intelligent_selection takeSample pool10 3).map (fun w => w.id)).Nodup ∧
    (∀ x ∈ intelligent_selection takeSample pool10 3, x ∈ pool10) ∧
    (pool10.length ≤ 3 → intelligent_selection takeSample pool10 3 = pool10) ∧
    intelligent_selection takeSample [] 3 = [] :=
  C1_selection_contract takeSample takeSample_isSampler pool10 3 (by decide) (by decide)

/-- Splitting the non-matching entries of the basic level by their actual
level. -/
theorem other_length_eq (pool : List VocabularyItem) :
    (pool.filter (fun v => decide (v.complexity ≠ EnglishLevel.basic))).length =
      (pool.filter (fun v => decide (v.complexity = EnglishLevel.intermediate))).length +
      (pool.filter (fun v => decide (v.complexity = EnglishLevel.advanced))).length := by
  induction pool with
  | nil => rfl
  | cons w ws ih =>
    simp only [decide_not] at ih ⊢
    cases hw : w.complexity <;> simp [List.filter_cons, hw, ih] <;> omega

/-- C4: for any pool of 4 basic, 3 intermediate and 3 advanced entries,
`get_category_vocabulary` at level basic with target 5 backfills the 4
matching-level entries with exactly one other-level entry, and by the
ascending-distance order on the ordinal scale that entry is intermediate
(preferred over advanced). -/
theorem C4_level_backfill (sample : List VocabularyItem → Nat → List VocabularyItem)
    (hs : IsSampler sample) (pool : List VocabularyItem)
    (h4 : (pool.filter (fun v => decide (v.complexity = EnglishLevel.basic))).length = 4)
    (h3i : (pool.filter (fun v => decide (v.complexity = EnglishLevel.intermediate))).length = 3)
    (h3a : (pool.filter (fun v => decide (v.complexity = EnglishLevel.advanced))).length = 3) :
    ∃ x, x ∈ pool ∧ x.complexity = EnglishLevel.intermediate ∧
      get_category_selection sample pool (some EnglishLevel.basic) 5 =
        pool.filter (fun v => decide (v.complexity = EnglishLevel.basic)) ++ [x] := by
  have hothlen : (pool.filter
      (fun v => decide (v.complexity ≠ EnglishLevel.basic))).length = 6 := by
    rw [other_length_eq]
    omega
  have hsortperm := List.perm_insertionSort (distLE EnglishLevel.basic)
    (pool.filter (fun v => decide (v.complexity ≠ EnglishLevel.basic)))
  have hsortlen : ((pool.filter
      (fun v => decide (v.complexity ≠ EnglishLevel.basic))).insertionSort
        (distLE EnglishLevel.basic)).length = 6 :=
    hsortperm.length_eq.trans hothlen
  obtain ⟨y, ys, hyys⟩ : ∃ y ys, (pool.filter
      (fun v => decide (v.complexity ≠ EnglishLevel.basic))).insertionSort
        (distLE EnglishLevel.basic) = y :: ys := by
    cases hsr : (pool.filter
        (fun v => decide (v.complexity ≠ EnglishLevel.basic))).insertionSort
          (distLE EnglishLevel.basic) with
    | nil =>
      rw [hsr] at hsortlen
      simp at hsortlen
    | cons a l => exact ⟨a, l, rfl⟩
  have hymem : y ∈ pool.filter (fun v => decide (v.complexity ≠ EnglishLevel.basic)) := by
    rw [← hsortperm.mem_iff, hyys]
    exact List.mem_cons_self _ _
  have hynotb : y.complexity ≠ EnglishLevel.basic := by
    have h := List.of_mem_filter hymem
    exact of_decide_eq_true h
  have hinterne : pool.filter
      (fun v => decide (v.complexity = EnglishLevel.intermediate)) ≠ [] := by
    intro h
    rw [h] at h3i
    simp at h3i
  obtain ⟨z, hzf⟩ := List.exists_mem_of_ne_nil _ hinterne
  have hzc : z.complexity = EnglishLevel.intermediate := by
    have h := List.of_mem_filter hzf
    exact of_decide_eq_true h
  have hzo : z ∈ pool.filter (fun v => decide (v.complexity ≠ EnglishLevel.basic)) := by
    refine List.mem_filter.mpr ⟨List.mem_of_mem_filter hzf, decide_eq_true ?_⟩
    rw [hzc]
    intro hc
    cases hc
  have hzd : level_distance z EnglishLevel.basic = 1 := by
    simp [level_distance, level_order, hzc]
  have hsorted := List.sorted_insertionSort (distLE EnglishLevel.basic)
    (pool.filter (fun v => decide (v.complexity ≠ EnglishLevel.basic)))
  rw [hyys] at hsorted
  have hyd : level_distance y EnglishLevel.basic ≤ 1 := by
    have hzsorted : z ∈ y :: ys := by
      rw [← hyys, hsortperm.mem_iff]
      exact hzo
    rcases List.mem_cons.mp hzsorted with he | hmem
    · rw [← he]
      exact Nat.le_of_eq hzd
    · have hle := (List.sorted_cons.mp hsorted).1 z hmem
      unfold distLE at hle
      omega
  have hyint : y.complexity = EnglishLevel.intermediate := by
    cases hyc : y.complexity with
    | basic => exact absurd hyc hynotb
    | intermediate => rfl
    | advanced =>
      rw [level_distance, hyc] at hyd
      simp [level_order] at hyd
  refine ⟨y, List.mem_of_mem_filter hymem, hyint, ?_⟩
  have hfl : (pool.filter
      (fun v => decide (v.complexity = EnglishLevel.basic))).length < 5 := by omega
  have hres : get_category_selection sample pool (some EnglishLevel.basic) 5 =
      intelligent_selection sample
        (pool.filter (fun v => decide (v.complexity = EnglishLevel.basic)) ++
          ((pool.filter (fun v => decide (v.complexity ≠ EnglishLevel.basic))).insertionSort
            (distLE EnglishLevel.basic)).take
              (5 - (pool.filter
                (fun v => decide (v.complexity = EnglishLevel.basic))).length)) 5 := by
    simp only [get_category_selection]
    rw [if_pos hfl]
  rw [hres, h4, hyys]
  have htake : (y :: ys).take (5 - 4) = [y] := rfl
  rw [htake]
  have hlen5 : (pool.filter (fun v => decide (v.complexity = EnglishLevel.basic)) ++
      [y]).length = 5 := by
    rw [List.length_append, h4]
    rfl
  unfold intelligent_selection
  rw [if_pos (le_of_eq hlen5)]

/-- Witness for C4 at the concrete ten-entry pool. -/
theorem C4_level_backfill_witness :
    ∃ x, x ∈ pool10 ∧ x.complexity = EnglishLevel.intermediate ∧
      get_category_selection takeSample pool10 (some EnglishLevel.basic) 5 =
        pool10.filter (fun v => decide (v.complexity = EnglishLevel.basic)) ++ [x] :=
  C4_level_backfill takeSample takeSample_isSampler pool10 (by decide) (by decide) (by decide)
